import Mathlib

/-!
# PomodoroMac — verification of the timer engine and dock-icon protocol

Shallow embedding of the core logic of the PomodoroMac repository:

* `src/App.tsx` — the timer/phase state machine (the `App` component state
  and its handlers `toggleRunning`, `handleReset`, `handleSkip`, the tick
  interval effect, the phase-advance effect, and the pointer-gesture
  duration mapping `updateDurationFromPointer`);
* `electron/main/index.ts` — the dock-payload pipeline
  (`parseDockPayload`, `updateDockIcon` and the
  `pomodoro:update-dock-icon` IPC handler).

JavaScript numbers are modelled as `ℚ` (with `Option ℚ` where `NaN` can
flow), integer counters as `ℕ`/`ℤ`.  The pointer geometry
(`atan2(dx, -dy)` normalised to `[0, 360)`) is trigonometric; the gesture
mapping is therefore embedded from the normalised angle in degrees
onwards, which is exactly the quantity the specification's angle-mapping
sentences quantify over.
-/

namespace Pomodoro

/-- JavaScript `Math.round`: round half toward `+∞`, i.e. `⌊q + 1/2⌋`. -/
def jsRound (q : ℚ) : ℤ := ⌊q + 1/2⌋

/-- The two timer phases of `App.tsx` (`type Phase = 'focus' | 'break'`). -/
inductive Phase
  | focus
  | brk
deriving DecidableEq, Repr

/-- `phase === 'focus' ? 'break' : 'focus'` in `App.tsx` (`nextPhase`; the
same expression recurs in the phase-advance effect and in `handleSkip`). -/
def otherPhase : Phase → Phase
  | .focus => .brk
  | .brk => .focus

/-- The mutable React state of the `App` component that the claims are
about: `phase`, `durations` (one configured-minutes entry per phase),
`remaining` (seconds) and `running`.  `theme`, `toast` and the drag
bookkeeping are presentation-only and carry no timer semantics. -/
structure TimerState where
  phase : Phase
  focusMinutes : ℕ
  breakMinutes : ℕ
  remaining : ℕ
  running : Bool
deriving DecidableEq, Repr

/-- `durations[p]` lookup on the two-entry record. -/
def TimerState.durations (s : TimerState) : Phase → ℕ
  | .focus => s.focusMinutes
  | .brk => s.breakMinutes

/-- Functional update of one entry of `durations` (the
`{ ...prev, [phase]: minutes }` spread in `updateDurationFromPointer`). -/
def TimerState.setDuration (s : TimerState) (p : Phase) (m : ℕ) : TimerState :=
  match p with
  | .focus => { s with focusMinutes := m }
  | .brk => { s with breakMinutes := m }

/-- Initial state of `App`: phase `focus`, durations 25/5 minutes
(`PHASE_META`), `remaining = 25 * 60`, paused. -/
def initState : TimerState :=
  { phase := .focus
    focusMinutes := 25
    breakMinutes := 5
    remaining := 25 * 60
    running := false }

/-- One firing of the tick interval (`App.tsx` lines 198–204): the
interval only exists while `running` and `remaining > 0`, and each firing
runs `setRemaining(prev => (prev <= 1 ? 0 : prev - 1))`. -/
def tick (s : TimerState) : TimerState :=
  if s.running = true ∧ 0 < s.remaining then
    { s with remaining := if s.remaining ≤ 1 then 0 else s.remaining - 1 }
  else s

/-- The phase-advance effect (`App.tsx` lines 206–212): when `running`
and `remaining` has reached 0 (the effect returns early on
`remaining > 0`), switch to the other phase at its full configured
duration. -/
def advancePhaseIfExpired (s : TimerState) : TimerState :=
  if s.running = true ∧ s.remaining = 0 then
    { s with
        phase := otherPhase s.phase
        remaining := s.durations (otherPhase s.phase) * 60 }
  else s

/-- `toggleRunning` (`App.tsx` lines 289–294): if `remaining <= 0` first
reload `remaining` to `totalSeconds = durations[phase] * 60`, then flip
`running`. -/
def toggleRunning (s : TimerState) : TimerState :=
  let s1 := if s.remaining = 0 then
    { s with remaining := s.durations s.phase * 60 } else s
  { s1 with running := !s1.running }

/-- `handleReset` (`App.tsx` lines 296–300): pause and reload the current
phase's full duration (the toast is presentation-only). -/
def handleReset (s : TimerState) : TimerState :=
  { s with running := false, remaining := s.durations s.phase * 60 }

/-- `handleSkip` (`App.tsx` lines 302–308): move to the other phase at
its full configured duration and pause. -/
def handleSkip (s : TimerState) : TimerState :=
  { s with
      phase := otherPhase s.phase
      remaining := s.durations (otherPhase s.phase) * 60
      running := false }

/-- The angle-to-minutes mapping of `updateDurationFromPointer`
(`App.tsx` lines 247–250): `minutes = Math.round(angleDegrees / 6)`,
raised to at least 1, then capped at `MAX_MINUTES = 60`. -/
def minutesFromAngle (angleDegrees : ℚ) : ℤ :=
  let m := jsRound (angleDegrees / 6)
  let m1 := if m < 1 then 1 else m
  if m1 > 60 then 60 else m1

/-- The same value as a natural number (it is always ≥ 1). -/
def minutesFromAngleN (angleDegrees : ℚ) : ℕ :=
  (minutesFromAngle angleDegrees).toNat

/-- `updateDurationFromPointer` (`App.tsx` lines 230–260), from the
normalised pointer angle onwards.  Returns the new state and the boolean
the callback returns: `false` (rejected, state untouched) while running;
otherwise stores the mapped minutes in `durations[phase]`, sets
`remaining := minutes * 60`, and returns `true`.  (The
`prev[phase] === minutes ? prev : ...` branch inside `setDurations` only
avoids allocating an identical record; the resulting state is the same.) -/
def updateDurationFromPointer (s : TimerState) (angleDegrees : ℚ) :
    TimerState × Bool :=
  if s.running = true then (s, false)
  else
    let minutes := minutesFromAngleN angleDegrees
    ({ s.setDuration s.phase minutes with remaining := minutes * 60 }, true)

/-- States of the engine reachable from the initial `App` state by the
operations the component exposes. -/
inductive Reachable : TimerState → Prop
  | init : Reachable initState
  | tick {s} : Reachable s → Reachable (tick s)
  | advance {s} : Reachable s → Reachable (advancePhaseIfExpired s)
  | toggle {s} : Reachable s → Reachable (toggleRunning s)
  | reset {s} : Reachable s → Reachable (handleReset s)
  | skip {s} : Reachable s → Reachable (handleSkip s)
  | gesture {s} (a : ℚ) : Reachable s → Reachable ((updateDurationFromPointer s a).1)

/-- The data-model invariant of the spec: `remaining` never exceeds the
active phase's full duration, and both configured durations lie in
`[1, 60]`. -/
def Invariant (s : TimerState) : Prop :=
  s.remaining ≤ s.durations s.phase * 60 ∧
  1 ≤ s.focusMinutes ∧ s.focusMinutes ≤ 60 ∧
  1 ≤ s.breakMinutes ∧ s.breakMinutes ≤ 60

instance : DecidablePred Invariant := fun s => by
  unfold Invariant
  infer_instance

/-! ## The dock-payload pipeline of `electron/main/index.ts` -/

/-- The JavaScript values that can reach the `pomodoro:update-dock-icon`
IPC handler.  The handler reads exactly the five properties `phase`,
`minutesLeft`, `totalMinutes`, `remainingRatio` and `running`; other
properties of an inbound object are never read, and a missing property
reads as `undefined`, so an object is modelled by those five values.
`nan` is JavaScript's `NaN` (the one non-finite value the repository's
own code can produce or test for). -/
inductive JSVal
  | undefined
  | nullv
  | boolean (b : Bool)
  | number (q : ℚ)
  | nan
  | str (s : String)
  | object (phase minutesLeft totalMinutes remainingRatio running : JSVal)
deriving DecidableEq, Repr

/-- JavaScript `Number(v)` coercion; `none` models `NaN`.  (For strings
the repository only ever needs the NaN outcome: non-numeric strings
coerce to `NaN`, and the empty string to 0; numeric-string parsing is
irrelevant to every claim and is not modelled further.) -/
def jsToNumber : JSVal → Option ℚ
  | .undefined => none
  | .nullv => some 0
  | .boolean b => some (if b then 1 else 0)
  | .number q => some q
  | .nan => none
  | .str s => if s = "" then some 0 else none
  | .object _ _ _ _ _ => none

/-- `Number(field ?? default)` as in `parseDockPayload`: nullish
coalescing replaces `undefined`/`null` by the numeric literal default
before coercion. -/
def coerceNumericField (v : JSVal) (d : ℚ) : Option ℚ :=
  match v with
  | .undefined => some d
  | .nullv => some d
  | v => jsToNumber v

/-- JavaScript `Boolean(v)` truthiness, used for `running`. -/
def jsTruthy : JSVal → Bool
  | .undefined => false
  | .nullv => false
  | .boolean b => b
  | .number q => if q = 0 then false else true
  | .nan => false
  | .str s => if s = "" then false else true
  | .object _ _ _ _ _ => true

/-- `PomodoroDockPayload` as produced by `parseDockPayload` (numeric
fields are genuine numbers, never `NaN`). -/
structure DockPayload where
  phase : Phase
  minutesLeft : ℚ
  totalMinutes : ℚ
  remainingRatio : ℚ
  running : Bool
deriving DecidableEq, Repr

/-- `parseDockPayload` (`electron/main/index.ts` lines 118–134): reject
non-objects (`!raw || typeof raw !== 'object'`), reject a `phase` that is
neither the string `'break'` nor `'focus'`, default the numeric fields
with `?? 0 / ?? 1 / ?? 0`, coerce with `Number(...)`, and reject the
whole payload if any coercion yields `NaN`. -/
def parseDockPayload : JSVal → Option DockPayload
  | .object ph ml tm rr ru =>
    let phase? : Option Phase :=
      if ph = .str "break" then some .brk
      else if ph = .str "focus" then some .focus
      else none
    match phase? with
    | none => none
    | some phase =>
      match coerceNumericField ml 0, coerceNumericField tm 1,
          coerceNumericField rr 0 with
      | some minutesLeft, some totalMinutes, some remainingRatio =>
        some { phase := phase
               minutesLeft := minutesLeft
               totalMinutes := totalMinutes
               remainingRatio := remainingRatio
               running := jsTruthy ru }
      | _, _, _ => none
  | _ => none

/-- The `constrained` payload built at the top of `updateDockIcon`
(`electron/main/index.ts` lines 194–200). -/
structure ConstrainedDockPayload where
  phase : Phase
  minutesLeft : ℤ
  totalMinutes : ℤ
  remainingRatio : ℚ
  running : Bool
deriving DecidableEq, Repr

/-- `Math.max(0, Math.min(99, Math.round(payload.minutesLeft)))` and the
companion clamps of `updateDockIcon`. -/
def constrainDockPayload (p : DockPayload) : ConstrainedDockPayload :=
  { phase := p.phase
    minutesLeft := max 0 (min 99 (jsRound p.minutesLeft))
    totalMinutes := max 1 (min 99 (jsRound p.totalMinutes))
    remainingRatio := min 1 (max 0 p.remainingRatio)
    running := p.running }

/-- `String(n).padStart(2, '0')`. -/
def padStart2 (s : String) : String :=
  if s.length < 2 then String.mk (List.replicate (2 - s.length) '0') ++ s
  else s

/-- The dock badge text of `updateDockIcon`: zero-padded minutes when
positive, `"00"` while running at zero, otherwise empty. -/
def dockBadge (c : ConstrainedDockPayload) : String :=
  if 0 < c.minutesLeft then padStart2 (toString c.minutesLeft)
  else if c.running then "00" else ""

/-- The dock-side state of the main process.  `lastDockKey` starts as the
empty string and then always holds `JSON.stringify(constrained)`;
since `JSON.stringify` is injective on `constrained` payloads (fixed key
order, canonical number rendering), the key is modelled by the
constrained payload itself, with `none` for the initial empty string.
`iconUpdates` counts how many times the dock badge and icon were set. -/
structure DockState where
  lastDockKey : Option ConstrainedDockPayload
  badge : String
  iconUpdates : ℕ
deriving DecidableEq, Repr

/-- Dock state at process start. -/
def initialDockState : DockState :=
  { lastDockKey := none, badge := "", iconUpdates := 0 }

/-- `updateDockIcon` (`electron/main/index.ts` lines 192–218) on the
macOS path (`isMac && app.dock`): constrain the payload, drop it if its
key equals `lastDockKey`, otherwise record the key and set badge and
icon.  The SVG rasterization (`buildDockSvg` / `nativeImage`) is the
excluded external collaborator; it is deterministic in the constrained
payload, so one `iconUpdates` increment stands for the
`setBadge`/`setIcon` pair. -/
def updateDockIcon (s : DockState) (p : DockPayload) : DockState :=
  let c := constrainDockPayload p
  if s.lastDockKey = some c then s
  else
    { lastDockKey := some c
      badge := dockBadge c
      iconUpdates := s.iconUpdates + 1 }

/-- The `pomodoro:update-dock-icon` IPC handler
(`electron/main/index.ts` lines 220–225): parse, and only act on a
successfully parsed payload. -/
def handleUpdateDockIcon (s : DockState) (raw : JSVal) : DockState :=
  match parseDockPayload raw with
  | some p => updateDockIcon s p
  | none => s

/-! ## Helper lemmas -/

lemma minutesFromAngle_bounds (a : ℚ) :
    1 ≤ minutesFromAngle a ∧ minutesFromAngle a ≤ 60 := by
  unfold minutesFromAngle
  dsimp only
  split <;> split <;> omega

lemma minutesFromAngleN_bounds (a : ℚ) :
    1 ≤ minutesFromAngleN a ∧ minutesFromAngleN a ≤ 60 := by
  have h := minutesFromAngle_bounds a
  unfold minutesFromAngleN
  omega

lemma minutesFromAngle_zero : minutesFromAngle 0 = 1 := by
  norm_num [minutesFromAngle, jsRound]

lemma minutesFromAngle_180 : minutesFromAngle 180 = 30 := by
  norm_num [minutesFromAngle, jsRound]

lemma minutesFromAngleN_180 : minutesFromAngleN 180 = 30 := by
  rw [minutesFromAngleN, minutesFromAngle_180]
  rfl

/-- With `running = true`, a tick is exactly a truncated decrement. -/
lemma tick_running (ph : Phase) (f b r : ℕ) :
    tick ⟨ph, f, b, r, true⟩ = ⟨ph, f, b, r - 1, true⟩ := by
  unfold tick
  dsimp only
  split
  · next h =>
    simp only [TimerState.mk.injEq, true_and, and_true]
    split <;> omega
  · next h =>
    simp only [true_and, not_lt, Nat.le_zero] at h
    simp only [TimerState.mk.injEq, true_and, and_true]
    omega

/-- Iterated ticks on a running state subtract the tick count. -/
lemma tick_iterate_running (ph : Phase) (f b r k : ℕ) :
    tick^[k] ⟨ph, f, b, r, true⟩ = ⟨ph, f, b, r - k, true⟩ := by
  induction k generalizing r with
  | zero => simp
  | succ n ih =>
    rw [Function.iterate_succ_apply, tick_running, ih]
    congr 1
    omega

lemma reachable_tick_iterate (k : ℕ) {s : TimerState} (h : Reachable s) :
    Reachable (tick^[k] s) := by
  induction k with
  | zero => simpa using h
  | succ n ih =>
    rw [Function.iterate_succ_apply']
    exact Reachable.tick ih

lemma rat180_bounds : (0 : ℚ) ≤ 180 ∧ (180 : ℚ) < 360 := by norm_num

lemma durations_focus (s : TimerState) : s.durations .focus = s.focusMinutes := rfl

lemma durations_brk (s : TimerState) : s.durations .brk = s.breakMinutes := rfl

lemma advance_not_expired (s : TimerState) (h : s.remaining ≠ 0) :
    advancePhaseIfExpired s = s := by
  unfold advancePhaseIfExpired
  rw [if_neg]
  intro hc
  exact h hc.2

lemma advance_expired (s : TimerState) (hrun : s.running = true)
    (h : s.remaining = 0) :
    advancePhaseIfExpired s =
      { s with
          phase := otherPhase s.phase
          remaining := s.durations (otherPhase s.phase) * 60 } := by
  unfold advancePhaseIfExpired
  rw [if_pos ⟨hrun, h⟩]

/-! ## Claim C1 -/

/-- Claim C1, counterexample: at angle 0° the pointer-to-duration mapping
yields 1 minute — `round(0 / 6) = 0` is raised to the lower clamp bound 1
— and not 60 minutes as the claim states. -/
theorem C1_counterexample :
    minutesFromAngle 0 = 1 ∧ minutesFromAngle 0 ≠ 60 := by
  rw [minutesFromAngle_zero]
  exact ⟨rfl, by decide⟩

/-- Claim C1 (amended): for every angle in `[0, 360)` the mapping
computes `round(angle / 6)` clamped to `[1, 60]`; angle 0° yields
1 minute (the clamp raises `round(0/6) = 0` to the lower bound 1, it does
not wrap to 60), angle 180° yields 30 minutes, and any angle strictly
between 354° and 357° yields 59 minutes. -/
theorem C1_angle_to_minutes (a : ℚ) (h0 : 0 ≤ a) (h1 : a < 360) :
    minutesFromAngle a = max 1 (min 60 (jsRound (a / 6))) ∧
    1 ≤ minutesFromAngle a ∧ minutesFromAngle a ≤ 60 ∧
    minutesFromAngle 0 = 1 ∧
    minutesFromAngle 180 = 30 ∧
    (354 < a → a < 357 → minutesFromAngle a = 59) := by
  refine ⟨?_, (minutesFromAngle_bounds a).1, (minutesFromAngle_bounds a).2,
    minutesFromAngle_zero, minutesFromAngle_180, ?_⟩
  · unfold minutesFromAngle
    dsimp only
    generalize jsRound (a / 6) = j
    rcases lt_or_le j 1 with h | h
    · rw [if_pos h, if_neg (by omega)]
      omega
    · rw [if_neg (not_lt.mpr h)]
      rcases lt_or_le 60 j with h2 | h2
      · rw [if_pos h2]
        omega
      · rw [if_neg (not_lt.mpr h2)]
        omega
  · intro h2 h3
    have hj : jsRound (a / 6) = 59 := by
      unfold jsRound
      rw [Int.floor_eq_iff]
      constructor
      · push_cast
        linarith
      · push_cast
        linarith
    unfold minutesFromAngle
    dsimp only
    rw [hj]
    decide

/-- Claim C1, witness: the amended theorem applied at angle 180°. -/
theorem C1_witness :
    (0 : ℚ) ≤ 180 ∧ (180 : ℚ) < 360 ∧ minutesFromAngle 180 = 30 :=
  ⟨rat180_bounds.1, rat180_bounds.2,
    (C1_angle_to_minutes 180 rat180_bounds.1 rat180_bounds.2).2.2.2.2.1⟩

/-! ## Claim C2 -/

/-- Claim C2: every state reachable from the initial `App` state through
tick, automatic phase advance, `toggleRunning`, reset, skip and the
pointer-gesture duration update satisfies the invariant:
`remaining ≤ durations[phase] * 60` (with `remaining : ℕ`, so
`0 ≤ remaining` throughout) and both configured durations lie in
`[1, 60]`. -/
theorem C2_reachable_invariant (s : TimerState) (h : Reachable s) :
    Invariant s := by
  induction h with
  | init => decide
  | tick h ih =>
    rename_i t
    obtain ⟨ph, f, b, r, run⟩ := t
    obtain ⟨h1, h2, h3, h4, h5⟩ := ih
    unfold Invariant tick at *
    dsimp only at *
    split
    · refine ⟨?_, h2, h3, h4, h5⟩
      cases ph <;> simp only [TimerState.durations] at h1 ⊢ <;> split <;> omega
    · exact ⟨h1, h2, h3, h4, h5⟩
  | advance h ih =>
    rename_i t
    obtain ⟨ph, f, b, r, run⟩ := t
    obtain ⟨h1, h2, h3, h4, h5⟩ := ih
    unfold Invariant advancePhaseIfExpired at *
    dsimp only at *
    split
    · refine ⟨?_, h2, h3, h4, h5⟩
      cases ph <;> simp only [TimerState.durations, otherPhase] <;> omega
    · exact ⟨h1, h2, h3, h4, h5⟩
  | toggle h ih =>
    rename_i t
    obtain ⟨ph, f, b, r, run⟩ := t
    obtain ⟨h1, h2, h3, h4, h5⟩ := ih
    unfold Invariant toggleRunning at *
    dsimp only at *
    split
    · exact ⟨le_refl _, h2, h3, h4, h5⟩
    · exact ⟨h1, h2, h3, h4, h5⟩
  | reset h ih =>
    rename_i t
    obtain ⟨ph, f, b, r, run⟩ := t
    obtain ⟨h1, h2, h3, h4, h5⟩ := ih
    exact ⟨le_refl _, h2, h3, h4, h5⟩
  | skip h ih =>
    rename_i t
    obtain ⟨ph, f, b, r, run⟩ := t
    obtain ⟨h1, h2, h3, h4, h5⟩ := ih
    unfold Invariant handleSkip at *
    dsimp only at *
    cases ph <;> exact ⟨le_refl _, h2, h3, h4, h5⟩
  | gesture a h ih =>
    rename_i t
    obtain ⟨ph, f, b, r, run⟩ := t
    obtain ⟨h1, h2, h3, h4, h5⟩ := ih
    have hb := minutesFromAngleN_bounds a
    unfold Invariant updateDurationFromPointer at *
    dsimp only at *
    split
    · exact ⟨h1, h2, h3, h4, h5⟩
    · cases ph <;>
        simp only [TimerState.setDuration, TimerState.durations] <;>
        exact ⟨le_refl _, by omega, by omega, by omega, by omega⟩

/-- Claim C2, witness: the invariant at the (reachable) initial state. -/
theorem C2_witness : Reachable initState ∧ Invariant initState :=
  ⟨Reachable.init, C2_reachable_invariant initState Reachable.init⟩

/-! ## Claim C3 -/

/-- Claim C3: the pointer-gesture duration update invoked while running
is a rejected no-op (it returns `false` and leaves the state untouched);
invoked while paused it returns `true`, stores the mapped minutes —
always clamped to `[1, 60]` — in the active phase's duration entry,
leaves the other phase's entry unchanged, and immediately resets
`remaining` to the new duration; and every `m ∈ [1, 60]` is realised, by
the angle `6 * m` degrees. -/
theorem C3_setDuration_gesture (s : TimerState) (a : ℚ) (m : ℕ) :
    (s.running = true → updateDurationFromPointer s a = (s, false)) ∧
    (s.running = false →
      (updateDurationFromPointer s a).2 = true ∧
      (updateDurationFromPointer s a).1.durations s.phase = minutesFromAngleN a ∧
      (updateDurationFromPointer s a).1.durations (otherPhase s.phase) =
        s.durations (otherPhase s.phase) ∧
      (updateDurationFromPointer s a).1.remaining = minutesFromAngleN a * 60 ∧
      1 ≤ minutesFromAngleN a ∧ minutesFromAngleN a ≤ 60) ∧
    (1 ≤ m → m ≤ 60 → minutesFromAngleN (6 * (m : ℚ)) = m) := by
  obtain ⟨ph, f, b, r, run⟩ := s
  refine ⟨fun hrun => ?_, fun hrun => ?_, fun hm1 hm2 => ?_⟩
  · unfold updateDurationFromPointer
    dsimp only at hrun ⊢
    rw [if_pos hrun]
  · have hb := minutesFromAngleN_bounds a
    dsimp only at hrun
    subst hrun
    unfold updateDurationFromPointer
    cases ph <;>
      simp [TimerState.setDuration, TimerState.durations, otherPhase] <;>
      omega
  · have key : jsRound (6 * (m : ℚ) / 6) = (m : ℤ) := by
      have e : 6 * (m : ℚ) / 6 = (m : ℚ) := by ring
      rw [e]
      unfold jsRound
      rw [Int.floor_eq_iff]
      constructor
      · push_cast
        linarith
      · push_cast
        linarith
    unfold minutesFromAngleN minutesFromAngle
    dsimp only
    rw [key]
    have e1 : (if (m : ℤ) < 1 then 1 else (m : ℤ)) = (m : ℤ) :=
      if_neg (by exact_mod_cast not_lt.mpr hm1)
    rw [e1, if_neg (by exact_mod_cast not_lt.mpr hm2)]
    simp

/-- Claim C3, witness: the theorem applied at the paused initial state
with angle 180° (30 minutes) and at `m = 30`. -/
theorem C3_witness :
    initState.running = false ∧
    (updateDurationFromPointer initState 180).2 = true ∧
    (updateDurationFromPointer initState 180).1.durations initState.phase =
      minutesFromAngleN 180 ∧
    (1 : ℕ) ≤ 30 ∧ (30 : ℕ) ≤ 60 ∧
    minutesFromAngleN (6 * ((30 : ℕ) : ℚ)) = 30 := by
  have h := C3_setDuration_gesture initState 180 30
  exact ⟨rfl, (h.2.1 rfl).1, (h.2.1 rfl).2.1, by decide, by decide,
    h.2.2 (by decide) (by decide)⟩

/-! ## Claim C4 -/

/-- Claim C4: from any running state whose `remaining` equals the active
phase's full duration, `durations[phase] * 60` consecutive ticks drive
`remaining` to exactly 0; the next evaluation of the expiry transition
moves to the other phase at that phase's full configured duration; and a
further evaluation of the expiry transition changes nothing (no double
advance). -/
theorem C4_tick_cycle (s : TimerState)
    (hrun : s.running = true)
    (hfull : s.remaining = s.durations s.phase * 60)
    (hdur : 1 ≤ s.durations (otherPhase s.phase)) :
    (tick^[s.durations s.phase * 60] s).remaining = 0 ∧
    advancePhaseIfExpired (tick^[s.durations s.phase * 60] s) =
      { s with
          phase := otherPhase s.phase
          remaining := s.durations (otherPhase s.phase) * 60 } ∧
    advancePhaseIfExpired
        (advancePhaseIfExpired (tick^[s.durations s.phase * 60] s)) =
      advancePhaseIfExpired (tick^[s.durations s.phase * 60] s) := by
  obtain ⟨ph, f, b, r, run⟩ := s
  dsimp only at hrun
  subst hrun
  cases ph with
  | focus =>
    simp only [durations_focus, otherPhase, durations_brk] at hfull hdur ⊢
    subst hfull
    rw [tick_iterate_running, Nat.sub_self]
    refine ⟨rfl, ?_, ?_⟩
    · rw [advance_expired ⟨.focus, f, b, 0, true⟩ rfl rfl]
      rfl
    · rw [advance_expired ⟨.focus, f, b, 0, true⟩ rfl rfl]
      apply advance_not_expired
      dsimp only [otherPhase, TimerState.durations]
      omega
  | brk =>
    simp only [durations_brk, otherPhase, durations_focus] at hfull hdur ⊢
    subst hfull
    rw [tick_iterate_running, Nat.sub_self]
    refine ⟨rfl, ?_, ?_⟩
    · rw [advance_expired ⟨.brk, f, b, 0, true⟩ rfl rfl]
      rfl
    · rw [advance_expired ⟨.brk, f, b, 0, true⟩ rfl rfl]
      apply advance_not_expired
      dsimp only [otherPhase, TimerState.durations]
      omega

/-- Claim C4, witness: the theorem applied at the full running Focus
state with the default 25/5 durations. -/
theorem C4_witness :
    ((⟨.focus, 25, 5, 1500, true⟩ : TimerState).running = true ∧
     (⟨.focus, 25, 5, 1500, true⟩ : TimerState).remaining =
       (⟨.focus, 25, 5, 1500, true⟩ : TimerState).durations
         (⟨.focus, 25, 5, 1500, true⟩ : TimerState).phase * 60 ∧
     1 ≤ (⟨.focus, 25, 5, 1500, true⟩ : TimerState).durations
       (otherPhase (⟨.focus, 25, 5, 1500, true⟩ : TimerState).phase)) ∧
    (tick^[(⟨.focus, 25, 5, 1500, true⟩ : TimerState).durations
         (⟨.focus, 25, 5, 1500, true⟩ : TimerState).phase * 60]
       (⟨.focus, 25, 5, 1500, true⟩ : TimerState)).remaining = 0 :=
  ⟨⟨rfl, by decide, by decide⟩,
   (C4_tick_cycle ⟨.focus, 25, 5, 1500, true⟩ rfl (by decide) (by decide)).1⟩

/-! ## Claim C5 -/

/-- Claim C5, counterexample: the state Focus/25/5 with `remaining = 0`
and `running = true` is reachable (start the initial timer and let it
tick down to zero), and `toggleRunning` there leaves `running = false` —
it flips the flag rather than setting it to `true` as the claim states. -/
theorem C5_counterexample :
    Reachable ⟨.focus, 25, 5, 0, true⟩ ∧
    (⟨.focus, 25, 5, 0, true⟩ : TimerState).remaining = 0 ∧
    (toggleRunning ⟨.focus, 25, 5, 0, true⟩).running = false := by
  refine ⟨?_, rfl, by decide⟩
  have h : Reachable (tick^[1500] (toggleRunning initState)) :=
    reachable_tick_iterate 1500 (Reachable.toggle Reachable.init)
  have e1 : toggleRunning initState = ⟨.focus, 25, 5, 1500, true⟩ := by decide
  rw [e1, tick_iterate_running] at h
  simpa using h

/-- Claim C5 (amended): `toggleRunning` invoked with `remaining = 0`
first reloads `remaining` to the current phase's full configured duration
and then flips `running` — in particular, invoked while paused it resumes
the same phase, running, at its full duration rather than advancing to
the other phase; invoked with `remaining > 0` it only flips the running
flag. -/
theorem C5_toggleRunning (s : TimerState) :
    (s.remaining = 0 →
      toggleRunning s =
        { s with
            remaining := s.durations s.phase * 60
            running := !s.running }) ∧
    (s.remaining ≠ 0 → toggleRunning s = { s with running := !s.running }) ∧
    (s.remaining = 0 → s.running = false →
      (toggleRunning s).running = true ∧
      (toggleRunning s).phase = s.phase ∧
      (toggleRunning s).remaining = s.durations s.phase * 60) := by
  obtain ⟨ph, f, b, r, run⟩ := s
  dsimp only
  refine ⟨fun h => ?_, fun h => ?_, fun h hrun => ?_⟩
  · subst h
    unfold toggleRunning
    rfl
  · unfold toggleRunning
    dsimp only
    rw [if_neg h]
  · subst h
    subst hrun
    unfold toggleRunning
    exact ⟨rfl, rfl, rfl⟩

/-- Claim C5, witness: the amended theorem applied at the paused expired
Focus state (it resumes the same phase, running, at full duration). -/
theorem C5_witness :
    (⟨.focus, 25, 5, 0, false⟩ : TimerState).remaining = 0 ∧
    (toggleRunning ⟨.focus, 25, 5, 0, false⟩).running = true ∧
    (toggleRunning ⟨.focus, 25, 5, 0, false⟩).phase = Phase.focus ∧
    (toggleRunning ⟨.focus, 25, 5, 0, false⟩).remaining =
      (⟨.focus, 25, 5, 0, false⟩ : TimerState).durations Phase.focus * 60 :=
  ⟨rfl, ((C5_toggleRunning ⟨.focus, 25, 5, 0, false⟩).2.2 rfl rfl).1,
   ((C5_toggleRunning ⟨.focus, 25, 5, 0, false⟩).2.2 rfl rfl).2.1,
   ((C5_toggleRunning ⟨.focus, 25, 5, 0, false⟩).2.2 rfl rfl).2.2⟩

/-! ## Claim C6 -/

/-- Claim C6: `handleReset` pauses the timer, reloads `remaining` to the
active phase's full configured duration, and changes neither the phase
nor either configured duration. -/
theorem C6_reset_frame (s : TimerState) :
    (handleReset s).running = false ∧
    (handleReset s).remaining = s.durations s.phase * 60 ∧
    (handleReset s).phase = s.phase ∧
    (handleReset s).focusMinutes = s.focusMinutes ∧
    (handleReset s).breakMinutes = s.breakMinutes :=
  ⟨rfl, rfl, rfl, rfl, rfl⟩

/-! ## Claim C7 -/

/-- Claim C7: `handleSkip`, regardless of the prior running flag, moves
to the other phase, sets `remaining` to the new phase's full configured
duration, always pauses, and changes neither configured duration. -/
theorem C7_skip (s : TimerState) :
    (handleSkip s).phase = otherPhase s.phase ∧
    (handleSkip s).remaining = s.durations (otherPhase s.phase) * 60 ∧
    (handleSkip s).running = false ∧
    (handleSkip s).focusMinutes = s.focusMinutes ∧
    (handleSkip s).breakMinutes = s.breakMinutes :=
  ⟨rfl, rfl, rfl, rfl, rfl⟩

/-! ## Claim C8 -/

/-- Claim C8: dock updates are deduplicated on `lastDockKey`: applying
`updateDockIcon` a second time with the same payload as the last accepted
one changes nothing, from a fresh key a pair of identical consecutive
payloads performs exactly one dock update, and a payload whose
constrained key already equals `lastDockKey` performs none. -/
theorem C8_dock_dedup (s : DockState) (p : DockPayload) :
    updateDockIcon (updateDockIcon s p) p = updateDockIcon s p ∧
    (s.lastDockKey = some (constrainDockPayload p) → updateDockIcon s p = s) ∧
    (s.lastDockKey ≠ some (constrainDockPayload p) →
      (updateDockIcon s p).iconUpdates = s.iconUpdates + 1 ∧
      (updateDockIcon (updateDockIcon s p) p).iconUpdates = s.iconUpdates + 1) := by
  refine ⟨?_, fun h => ?_, fun h => ?_⟩
  · unfold updateDockIcon
    dsimp only
    split
    · rfl
    · simp
  · unfold updateDockIcon
    dsimp only
    rw [if_pos h]
  · unfold updateDockIcon
    dsimp only
    rw [if_neg h]
    simp

/-- Claim C8, witness: the theorem applied at the fresh initial dock
state and a concrete payload; the pair of identical sends performs one
update. -/
theorem C8_witness :
    initialDockState.lastDockKey ≠
      some (constrainDockPayload ⟨.focus, 0, 0, 0, false⟩) ∧
    (updateDockIcon initialDockState ⟨.focus, 0, 0, 0, false⟩).iconUpdates =
      initialDockState.iconUpdates + 1 ∧
    updateDockIcon (updateDockIcon initialDockState ⟨.focus, 0, 0, 0, false⟩)
        ⟨.focus, 0, 0, 0, false⟩ =
      updateDockIcon initialDockState ⟨.focus, 0, 0, 0, false⟩ :=
  ⟨fun h => Option.noConfusion h,
   ((C8_dock_dedup initialDockState ⟨.focus, 0, 0, 0, false⟩).2.2
     (fun h => Option.noConfusion h)).1,
   (C8_dock_dedup initialDockState ⟨.focus, 0, 0, 0, false⟩).1⟩

/-! ## Claim C9 -/

/-- Claim C9: `parseDockPayload` returns `none` for every non-object,
for every object whose `phase` is neither the string `"focus"` nor
`"break"`, and for every object in which any of the three numeric fields
coerces to `NaN` after nullish defaulting; and a payload that parses to
`none` leaves the dock state — `lastDockKey`, badge and icon — entirely
unchanged (and, being a total function, raises no error). -/
theorem C9_malformed_payload_dropped (raw ph ml tm rr ru : JSVal)
    (s : DockState) :
    ((∀ p1 p2 p3 p4 p5 : JSVal, raw ≠ .object p1 p2 p3 p4 p5) →
      parseDockPayload raw = none) ∧
    (ph ≠ .str "focus" → ph ≠ .str "break" →
      parseDockPayload (.object ph ml tm rr ru) = none) ∧
    (coerceNumericField ml 0 = none →
      parseDockPayload (.object ph ml tm rr ru) = none) ∧
    (coerceNumericField tm 1 = none →
      parseDockPayload (.object ph ml tm rr ru) = none) ∧
    (coerceNumericField rr 0 = none →
      parseDockPayload (.object ph ml tm rr ru) = none) ∧
    (parseDockPayload raw = none → handleUpdateDockIcon s raw = s) := by
  refine ⟨?_, ?_, ?_, ?_, ?_, ?_⟩
  · intro h
    cases raw
    case object p1 p2 p3 p4 p5 => exact absurd rfl (h p1 p2 p3 p4 p5)
    all_goals rfl
  · intro hf hb
    unfold parseDockPayload
    dsimp only
    rw [if_neg hb, if_neg hf]
  · intro hml
    unfold parseDockPayload
    dsimp only
    split
    · rfl
    · rw [hml]
  · intro htm
    unfold parseDockPayload
    dsimp only
    split
    · rfl
    · rw [htm]
      rcases coerceNumericField ml 0 with _ | q <;> rfl
  · intro hrr
    unfold parseDockPayload
    dsimp only
    split
    · rfl
    · rw [hrr]
      rcases coerceNumericField ml 0 with _ | q <;>
        rcases coerceNumericField tm 1 with _ | q2 <;> rfl
  · intro h
    unfold handleUpdateDockIcon
    rw [h]

/-- Claim C9, witness: the theorem applied to an object payload whose
`minutesLeft` is `NaN` — it is dropped with the dock state unchanged. -/
theorem C9_witness :
    coerceNumericField JSVal.nan 0 = none ∧
    parseDockPayload
      (.object (.str "focus") .nan .undefined .undefined .undefined) = none ∧
    handleUpdateDockIcon initialDockState
      (.object (.str "focus") .nan .undefined .undefined .undefined) =
      initialDockState := by
  have h := C9_malformed_payload_dropped
    (.object (.str "focus") .nan .undefined .undefined .undefined)
    (.str "focus") .nan .undefined .undefined .undefined initialDockState
  exact ⟨rfl, h.2.2.1 rfl, h.2.2.2.2.2 (h.2.2.1 rfl)⟩

/-! ## Claim C10 -/

/-- Claim C10 (implicit): for an object whose `phase` is `"focus"` or
`"break"`, an absent numeric field never drops the update — its nullish
default (`minutesLeft = 0`, `totalMinutes = 1`, `remainingRatio = 0`) is
filled in before the NaN check, so its coercion always succeeds — and
whenever the three (defaulted) coercions succeed the payload parses with
the default in exactly the absent positions; further, the constrained
payload built by `updateDockIcon` always satisfies
`minutesLeft ∈ [0, 99]` (rounded), `totalMinutes ∈ [1, 99]` (rounded)
and `remainingRatio ∈ [0, 1]`. -/
theorem C10_defaults_and_constraints (ph ml tm rr ru : JSVal)
    (p : DockPayload) :
    ((ph = .str "focus" ∨ ph = .str "break") →
      (ml = .undefined → coerceNumericField ml 0 = some 0) ∧
      (tm = .undefined → coerceNumericField tm 1 = some 1) ∧
      (rr = .undefined → coerceNumericField rr 0 = some 0) ∧
      (∀ qml qtm qrr : ℚ,
        coerceNumericField ml 0 = some qml →
        coerceNumericField tm 1 = some qtm →
        coerceNumericField rr 0 = some qrr →
        ∃ q, parseDockPayload (.object ph ml tm rr ru) = some q ∧
          q.minutesLeft = qml ∧ q.totalMinutes = qtm ∧
          q.remainingRatio = qrr ∧
          (ml = .undefined → q.minutesLeft = 0) ∧
          (tm = .undefined → q.totalMinutes = 1) ∧
          (rr = .undefined → q.remainingRatio = 0))) ∧
    (0 ≤ (constrainDockPayload p).minutesLeft ∧
      (constrainDockPayload p).minutesLeft ≤ 99 ∧
      (constrainDockPayload p).minutesLeft =
        max 0 (min 99 (jsRound p.minutesLeft)) ∧
      1 ≤ (constrainDockPayload p).totalMinutes ∧
      (constrainDockPayload p).totalMinutes ≤ 99 ∧
      (constrainDockPayload p).totalMinutes =
        max 1 (min 99 (jsRound p.totalMinutes)) ∧
      0 ≤ (constrainDockPayload p).remainingRatio ∧
      (constrainDockPayload p).remainingRatio ≤ 1) := by
  constructor
  · intro hph
    refine ⟨fun h => by subst h; rfl, fun h => by subst h; rfl,
      fun h => by subst h; rfl, ?_⟩
    intro qml qtm qrr h1 h2 h3
    rcases hph with hph | hph <;> subst hph
    · refine ⟨⟨.focus, qml, qtm, qrr, jsTruthy ru⟩, ?_,
        rfl, rfl, rfl, fun hm => ?_, fun hm => ?_, fun hm => ?_⟩
      · unfold parseDockPayload
        dsimp only
        rw [if_neg (by decide), if_pos rfl, h1, h2, h3]
      · subst hm
        exact (Option.some.inj h1).symm
      · subst hm
        exact (Option.some.inj h2).symm
      · subst hm
        exact (Option.some.inj h3).symm
    · refine ⟨⟨.brk, qml, qtm, qrr, jsTruthy ru⟩, ?_,
        rfl, rfl, rfl, fun hm => ?_, fun hm => ?_, fun hm => ?_⟩
      · unfold parseDockPayload
        dsimp only
        rw [if_pos rfl, h1, h2, h3]
      · subst hm
        exact (Option.some.inj h1).symm
      · subst hm
        exact (Option.some.inj h2).symm
      · subst hm
        exact (Option.some.inj h3).symm
  · unfold constrainDockPayload
    dsimp only
    refine ⟨?_, ?_, rfl, ?_, ?_, rfl, ?_, ?_⟩
    · omega
    · omega
    · omega
    · omega
    · exact le_min zero_le_one (le_max_left 0 _)
    · exact min_le_left 1 _

/-- Claim C10, witness: the theorem applied to a `"break"` object with a
mixed payload — `minutesLeft` and `remainingRatio` absent,
`totalMinutes` the number 10 — and to a concrete parsed payload: the
absent fields come out defaulted, the present one kept. -/
theorem C10_witness :
    ((JSVal.str "break" = JSVal.str "focus" ∨
        JSVal.str "break" = JSVal.str "break") ∧
      coerceNumericField JSVal.undefined 0 = some 0 ∧
      coerceNumericField (JSVal.number 10) 1 = some 10) ∧
    (∃ q, parseDockPayload
        (.object (.str "break") .undefined (.number 10) .undefined
          .undefined) = some q ∧
      q.minutesLeft = 0 ∧ q.totalMinutes = 10 ∧ q.remainingRatio = 0) ∧
    0 ≤ (constrainDockPayload ⟨.brk, 0, 0, 0, true⟩).minutesLeft ∧
    1 ≤ (constrainDockPayload ⟨.brk, 0, 0, 0, true⟩).totalMinutes := by
  have h := C10_defaults_and_constraints (.str "break") .undefined
    (.number 10) .undefined .undefined ⟨.brk, 0, 0, 0, true⟩
  obtain ⟨q, hq, e1, e2, e3, -, -, -⟩ :=
    (h.1 (Or.inr rfl)).2.2.2 0 10 0 rfl rfl rfl
  exact ⟨⟨Or.inr rfl, rfl, rfl⟩, ⟨q, hq, e1, e2, e3⟩, h.2.1, h.2.2.2.2.1⟩

end Pomodoro
